import Mathlib

/-!
# Verification of the ILI anomaly-pair training pipeline

Shallow embedding of `backend/ml-sidecar/training/features.py` and
`backend/ml-sidecar/training/build_dataset.py`, followed by theorems that
settle the specification claims about feature extraction, dataset
construction, leakage prevention, negative-fill policy, determinism and
failure policy.

Numeric values that are Python floats in the source are modelled as exact
rationals (`ℚ`); the operations involved (absolute difference, comparison,
table lookup) are exact on the modelled inputs.  Python `None` becomes
`Option`, MongoDB documents become structures, and the two process-wide
seeded random generators (`random` and `np.random`) are modelled as explicit
streams of naturals threaded through the builder.
-/

/-! ## features.py -/

/-- Flat representation of a single Feature document
(`features.py`, `class AnomalyRecord`). -/
structure AnomalyRecord where
  feature_id : String
  run_id : String
  event_type : String
  corrected_distance_ft : ℚ
  log_distance_ft : ℚ
  clock_position_hrs : Option ℚ
  depth_percent : Option ℚ
  length_in : Option ℚ
  width_in : Option ℚ
  wall_thickness_in : Option ℚ
  joint_number : Option Int
  dist_to_upstream_weld_ft : Option ℚ
deriving DecidableEq

/-- Run-level and alignment-level context for a pair
(`features.py`, `class PairContext`). -/
structure PairContext where
  run_gap_years : ℚ
  api_1163_tool_weight : ℚ
  dtw_residual : Option ℚ
  icp_residual : Option ℚ
  anchor_density : Option ℚ
deriving DecidableEq

/-- Type compatibility matrix (`features.py`, `TYPE_COMPAT`), kept in the
source's entry order; a Python dict literal with distinct keys is an
association list looked up by key. -/
def TYPE_COMPAT : List ((String × String) × ℚ) :=
  [ (("METAL_LOSS", "METAL_LOSS"), 1),
    (("DENT", "DENT"), 1),
    (("CRACK", "CRACK"), 1),
    (("WELD", "WELD"), 1),
    (("GIRTH_WELD", "GIRTH_WELD"), 1),
    (("CLUSTER", "CLUSTER"), 1),
    (("METAL_LOSS", "CORROSION"), 9/10),
    (("CORROSION", "METAL_LOSS"), 9/10),
    (("METAL_LOSS", "CLUSTER"), 85/100),
    (("CLUSTER", "METAL_LOSS"), 85/100),
    (("DENT", "DEFORMATION"), 85/100),
    (("DEFORMATION", "DENT"), 85/100),
    (("CRACK", "CRACK_LIKE"), 8/10),
    (("CRACK_LIKE", "CRACK"), 8/10),
    (("METAL_LOSS_MFG", "METAL_LOSS_MFG"), 1),
    (("METAL_LOSS", "METAL_LOSS_MFG"), 7/10),
    (("METAL_LOSS_MFG", "METAL_LOSS"), 7/10) ]

/-- First-match association-list lookup, the semantics of `dict.get` on a
dict literal with pairwise-distinct keys. -/
def lookupCompat (k : String × String) : List ((String × String) × ℚ) → Option ℚ
  | [] => none
  | (k', v) :: rest => if k = k' then some v else lookupCompat k rest

/-- Number of features (`features.py`, `NUM_FEATURES`); `FEATURE_NAMES` has
13 entries. -/
def NUM_FEATURES : Nat := 13

/-- `features.py`, `_clock_delta_wrap_aware`: absolute clock difference in
hours wrapping around the 12-hour dial, `-1` if either side is missing. -/
def _clock_delta_wrap_aware (a b : Option ℚ) : ℚ :=
  match a, b with
  | some a, some b =>
    let raw := |a - b|
    if raw > 6 then 12 - raw else raw
  | _, _ => -1

/-- `features.py`, `_safe_abs_delta` (with the default `missing = -1.0`,
the only value the source ever uses). -/
def _safe_abs_delta (a b : Option ℚ) : ℚ :=
  match a, b with
  | some a, some b => |a - b|
  | _, _ => -1

/-- `features.py`, `_type_compat_score`: exact match gives 1.0, otherwise
the matrix value with default 0.0. -/
def _type_compat_score (t1 t2 : String) : ℚ :=
  if t1 = t2 then 1 else (lookupCompat (t1, t2) TYPE_COMPAT).getD 0

/-- `features.py`, `_same_weld_segment`: joint-number equality when both
are present, otherwise a ~40 ft proximity fallback. -/
def _same_weld_segment (a b : AnomalyRecord) : ℚ :=
  match a.joint_number, b.joint_number with
  | some ja, some jb => if ja = jb then 1 else 0
  | _, _ =>
    let dist_diff := |a.corrected_distance_ft - b.corrected_distance_ft|
    if dist_diff < 40 then 1 else 0

/-- `features.py`, `extract_features`: the fixed 13-slot feature vector,
in `FEATURE_NAMES` order, sentinel `-1` for missing optional inputs. -/
def extract_features (older newer : AnomalyRecord) (ctx : PairContext) : List ℚ :=
  [ |older.corrected_distance_ft - newer.corrected_distance_ft|,
    _clock_delta_wrap_aware older.clock_position_hrs newer.clock_position_hrs,
    _same_weld_segment older newer,
    _safe_abs_delta older.depth_percent newer.depth_percent,
    _safe_abs_delta older.length_in newer.length_in,
    _safe_abs_delta older.width_in newer.width_in,
    _safe_abs_delta older.wall_thickness_in newer.wall_thickness_in,
    _type_compat_score older.event_type newer.event_type,
    ctx.run_gap_years,
    ctx.api_1163_tool_weight,
    ctx.dtw_residual.getD (-1),
    ctx.icp_residual.getD (-1),
    ctx.anchor_density.getD (-1) ]

/-- The same-segment rule exactly as the specification words it ("1.0 if
both joint numbers are present and equal; otherwise it falls back to 1.0 if
the absolute longitudinal-position difference is below the fixed proximity
threshold"): the proximity fallback applies whenever the first rule does not
fire, including when both joint numbers are present but unequal.  Written
from the spec only, for comparison against `_same_weld_segment`. -/
def same_weld_segment_spec (a b : AnomalyRecord) : ℚ :=
  match a.joint_number, b.joint_number with
  | some ja, some jb =>
    if ja = jb then 1
    else if |a.corrected_distance_ft - b.corrected_distance_ft| < 40 then 1 else 0
  | _, _ =>
    if |a.corrected_distance_ft - b.corrected_distance_ft| < 40 then 1 else 0

/-! ## build_dataset.py — document model and record-store snapshot -/

/-- A MatchedPair document, with the fields `build_dataset.py` reads.
String/number fields the source reads through `str(mp.get(k, ""))` or
`mp.get(k, 0)` are modelled as already-defaulted totals. -/
structure MatchedPairDoc where
  job_id : String
  run_a_feature_id : String
  run_b_feature_id : String
  run_a_run_id : String
  run_b_run_id : String
  confidence_score : ℚ
  confidence_category : String
deriving DecidableEq

/-- A Run document: `_id`, optional `year`, and the
`tool_qualification.confidence_weight` leaf; `none` stands for an absent key
or a non-dict `tool_qualification` (both default to 0.85 at use sites). -/
structure RunDoc where
  id : String
  year : Option Int
  confidence_weight : Option ℚ
deriving DecidableEq

/-- A Feature document, with the fields `_feat_to_record` and the negative
miners read.  `id` is `str(doc["_id"])`. -/
structure FeatDoc where
  id : String
  run_id : String
  event_type_canonical : Option String
  event_type_raw : Option String
  corrected_distance_ft : Option ℚ
  log_distance_ft : Option ℚ
  clock_decimal : Option ℚ
  depth_percent : Option ℚ
  length_in : Option ℚ
  width_in : Option ℚ
  wall_thickness_in : Option ℚ
  joint_number : Option Int
  dist_to_upstream_weld_ft : Option ℚ
  is_reference_point : Bool
deriving DecidableEq

/-- Immutable snapshot of the record store at build time: the collection
names plus, for each collection name, its documents read as matched pairs,
runs, or features (a typed view of `db[name].find(...)`). -/
structure DBSnapshot where
  collection_names : List String
  matchedColl : String → List MatchedPairDoc
  runColl : String → List RunDoc
  featColl : String → List FeatDoc

/-- Python's `x or y` on an optional float: `None` and `0.0` are falsy. -/
def pyOrQ (a b : Option ℚ) : Option ℚ :=
  match a with
  | some x => if x = 0 then b else some x
  | none => b

/-- `build_dataset.py`, `_feat_to_record`: convert a Feature document to an
`AnomalyRecord`.  `corrected_distance_ft` is
`doc.get("corrected_distance_ft") or doc.get("log_distance_ft") or 0.0`. -/
def _feat_to_record (doc : FeatDoc) : AnomalyRecord :=
  { feature_id := doc.id
    run_id := doc.run_id
    event_type := doc.event_type_canonical.getD (doc.event_type_raw.getD "OTHER")
    corrected_distance_ft := (pyOrQ doc.corrected_distance_ft doc.log_distance_ft).getD 0
    log_distance_ft := doc.log_distance_ft.getD 0
    clock_position_hrs := doc.clock_decimal
    depth_percent := doc.depth_percent
    length_in := doc.length_in
    width_in := doc.width_in
    wall_thickness_in := doc.wall_thickness_in
    joint_number := doc.joint_number
    dist_to_upstream_weld_ft := doc.dist_to_upstream_weld_ft }

/-- Python's `str.lower()`, character by character (the collection names
probed are ASCII). -/
def pyLower (s : String) : String := ⟨s.data.map Char.toLower⟩

/-- Lookup in a Python dict built by successive insertions recorded
front-to-back: the last insertion for a key wins. -/
def dictGet (d : List (String × α)) (k : String) : Option α :=
  (d.reverse.find? (fun p => p.1 = k)).map (·.2)

/-- The bounded collection-name probe for matched pairs
(`build_dataset.py` lines 86–100): read `matchedpairs`; if empty, try the
four casing variants against `list_collection_names()` (case-insensitively)
and load the first collection whose lowercased name matches. -/
def probe_matched_pairs (db : DBSnapshot) : List MatchedPairDoc :=
  let primary := db.matchedColl "matchedpairs"
  if primary ≠ [] then primary
  else
    let lowered := db.collection_names.map pyLower
    let rec tryVariants : List String → List MatchedPairDoc
      | [] => []
      | v :: rest =>
        if lowered.contains (pyLower v) then
          match db.collection_names.find? (fun c => pyLower c = pyLower v) with
          | some actual => db.matchedColl actual
          | none => []
        else tryVariants rest
    tryVariants ["MatchedPairs", "matched_pairs", "matchedPairs", "matchedpair"]

/-- `runs_by_id` (lines 111–122): index the `runs` collection by `_id`,
falling back to the first collection named `runs`/`run` (case-insensitively)
when the primary read yields nothing.  Insertion order recorded
front-to-back; `dictGet` applies last-wins semantics. -/
def runs_by_id (db : DBSnapshot) : List (String × RunDoc) :=
  let primary := (db.runColl "runs").map (fun r => (r.id, r))
  if primary ≠ [] then primary
  else
    match db.collection_names.find? (fun n => pyLower n = "runs" ∨ pyLower n = "run") with
    | some actual => (db.runColl actual).map (fun r => (r.id, r))
    | none => []

/-- The feature ids referenced by the matched pairs (lines 133–137). -/
def featIds (mps : List MatchedPairDoc) : List String :=
  mps.foldr (fun mp acc => mp.run_a_feature_id :: mp.run_b_feature_id :: acc) []

/-- The run ids referenced by the matched pairs (lines 154–158). -/
def runIdsInMatches (mps : List MatchedPairDoc) : List String :=
  mps.foldr (fun mp acc => mp.run_a_run_id :: mp.run_b_run_id :: acc) []

/-- Features referenced by matches (lines 140–151): filter the `features`
collection by `_id ∈ feat_ids`, falling back to the first collection named
`features`/`feature` when the primary read yields nothing. -/
def featuresReferenced (db : DBSnapshot) (mps : List MatchedPairDoc) : List FeatDoc :=
  let ids := featIds mps
  let primary := (db.featColl "features").filter (fun f => ids.contains f.id)
  if primary ≠ [] then primary
  else
    match db.collection_names.find? (fun n => pyLower n = "features" ∨ pyLower n = "feature") with
    | some actual => (db.featColl actual).filter (fun f => ids.contains f.id)
    | none => []

/-- Features in the runs touched by matches (lines 160–164): a second query
against the primary `features` collection, with no name fallback. -/
def featuresForRuns (db : DBSnapshot) (mps : List MatchedPairDoc) : List FeatDoc :=
  (db.featColl "features").filter (fun f => (runIdsInMatches mps).contains f.run_id)

/-- `features_by_id` after both loading stages: the referenced features,
then the per-run features overwriting on key collision (dict assignment). -/
def features_by_id (db : DBSnapshot) (mps : List MatchedPairDoc) : List (String × FeatDoc) :=
  (featuresReferenced db mps).map (fun f => (f.id, f))
    ++ (featuresForRuns db mps).map (fun f => (f.id, f))

/-- `all_features_for_runs`: group the per-run query's documents by
`run_id`, `setdefault`/`append` style — key order is first-appearance
order, each group keeps document order. -/
def addToRunGroup (groups : List (String × List FeatDoc)) (rid : String) (f : FeatDoc) :
    List (String × List FeatDoc) :=
  match groups with
  | [] => [(rid, [f])]
  | (k, fs) :: rest =>
    if k = rid then (k, fs ++ [f]) :: rest else (k, fs) :: addToRunGroup rest rid f

/-- The grouped per-run features map (lines 160–164). -/
def all_features_for_runs (db : DBSnapshot) (mps : List MatchedPairDoc) :
    List (String × List FeatDoc) :=
  (featuresForRuns db mps).foldl (fun groups f => addToRunGroup groups f.run_id f) []

/-- `groups.get(rid, [])` — keys are unique by construction. -/
def groupGet (groups : List (String × List FeatDoc)) (rid : String) : List FeatDoc :=
  ((groups.find? (fun p => p.1 = rid)).map (·.2)).getD []

/-- `matched_feature_set` (lines 125–130): both orientations of every
matched identifier pair, for leakage checks. -/
def matchedFeatureSet : List MatchedPairDoc → List (String × String)
  | [] => []
  | mp :: rest =>
    (mp.run_a_feature_id, mp.run_b_feature_id)
      :: (mp.run_b_feature_id, mp.run_a_feature_id) :: matchedFeatureSet rest

/-! ## build_dataset.py — samples -/

/-- Per-row audit metadata, the dict appended to `meta_pos` / `meta_neg`. -/
structure SampleMeta where
  feature_a : String
  feature_b : String
  job_id : String
  det_score : Option ℚ
  det_category : Option String
  label : Nat
  neg_type : Option String
deriving DecidableEq

/-- The ordered identifier pair of a sample's audit metadata. -/
def pairOf (m : SampleMeta) : String × String := (m.feature_a, m.feature_b)

/-- The pair context built identically at all three mining sites
(positive, hard, easy): run-gap from the two runs' years (defaults 2000 and
2005 for a missing run or year), tool weight from the second run's
qualification data (default 0.85). -/
def pairCtx (runs : List (String × RunDoc)) (aRunId bRunId : String) : PairContext :=
  let a_run := dictGet runs aRunId
  let b_run := dictGet runs bRunId
  let year_a := (a_run.bind (·.year)).getD 2000
  let year_b := (b_run.bind (·.year)).getD 2005
  let tool_weight := (b_run.bind (·.confidence_weight)).getD (85/100)
  { run_gap_years := ((|year_b - year_a| : Int) : ℚ)
    api_1163_tool_weight := tool_weight
    dtw_residual := none
    icp_residual := none
    anchor_density := none }

/-- Positive samples (lines 176–213): one per matched pair whose two
feature documents resolve; label 1, audit metadata carries the pair's ids
and deterministic score. -/
def positiveSamples (db : DBSnapshot) (mps : List MatchedPairDoc) :
    List (List ℚ × SampleMeta) :=
  let fbid := features_by_id db mps
  let runs := runs_by_id db
  mps.filterMap (fun mp =>
    match dictGet fbid mp.run_a_feature_id, dictGet fbid mp.run_b_feature_id with
    | some a_doc, some b_doc =>
      let a_rec := _feat_to_record a_doc
      let b_rec := _feat_to_record b_doc
      let ctx := pairCtx runs mp.run_a_run_id mp.run_b_run_id
      some (extract_features a_rec b_rec ctx,
        { feature_a := mp.run_a_feature_id
          feature_b := mp.run_b_feature_id
          job_id := mp.job_id
          det_score := some mp.confidence_score
          det_category := some mp.confidence_category
          label := 1
          neg_type := none })
    | _, _ => none)

/-- Accumulator of the negative-mining loops: the collected rows with their
metadata (`X_neg` and `meta_neg` appended in lockstep) and the dedup set
`neg_pair_set`. -/
structure NegAcc where
  samples : List (List ℚ × SampleMeta)
  neg_pair_set : List (String × String)
deriving DecidableEq

/-- Inner scan of the hard-negative miner (lines 250–308): for one matched
pair's fixed `newer` record, scan the `older` run's features; skip true
matches, already-collected pairs, reference points, far candidates, and
clock-incompatible candidates; accept the rest as label-0 "hard" rows until
`target_hard` is reached. -/
def hardNegInner (S : List (String × String)) (runs : List (String × RunDoc))
    (target_hard : Nat) (hard_neg_dist_ft hard_neg_clock_hrs : ℚ)
    (mp : MatchedPairDoc) (b_rec : AnomalyRecord) (b_id : String) :
    List FeatDoc → NegAcc → NegAcc
  | [], acc => acc
  | a_doc :: rest, acc =>
    if acc.samples.length ≥ target_hard then acc
    else
      let a_id := a_doc.id
      if (a_id, b_id) ∈ S then
        hardNegInner S runs target_hard hard_neg_dist_ft hard_neg_clock_hrs mp b_rec b_id rest acc
      else if (a_id, b_id) ∈ acc.neg_pair_set then
        hardNegInner S runs target_hard hard_neg_dist_ft hard_neg_clock_hrs mp b_rec b_id rest acc
      else if a_doc.is_reference_point then
        hardNegInner S runs target_hard hard_neg_dist_ft hard_neg_clock_hrs mp b_rec b_id rest acc
      else
        let a_rec := _feat_to_record a_doc
        let dist_diff := |a_rec.corrected_distance_ft - b_rec.corrected_distance_ft|
        if dist_diff > hard_neg_dist_ft then
          hardNegInner S runs target_hard hard_neg_dist_ft hard_neg_clock_hrs mp b_rec b_id rest acc
        else
          let clockReject : Bool :=
            match a_rec.clock_position_hrs, b_rec.clock_position_hrs with
            | some ca, some cb =>
              let raw := |ca - cb|
              let cd := if raw > 6 then 12 - raw else raw
              decide (cd > hard_neg_clock_hrs)
            | _, _ => false
          if clockReject then
            hardNegInner S runs target_hard hard_neg_dist_ft hard_neg_clock_hrs mp b_rec b_id rest acc
          else
            let ctx := pairCtx runs mp.run_a_run_id mp.run_b_run_id
            let fv := extract_features a_rec b_rec ctx
            let meta : SampleMeta :=
              { feature_a := a_id, feature_b := b_id, job_id := mp.job_id
                det_score := none, det_category := none, label := 0, neg_type := some "hard" }
            let acc' : NegAcc :=
              { samples := acc.samples ++ [(fv, meta)]
                neg_pair_set := acc.neg_pair_set ++ [(a_id, b_id)] }
            hardNegInner S runs target_hard hard_neg_dist_ft hard_neg_clock_hrs mp b_rec b_id rest acc'

/-- Outer hard-negative loop (lines 237–308): iterate matched pairs until
`target_hard` collected; resolve the `newer` document, then scan the older
run's features with `hardNegInner`. -/
def hardNegLoop (S : List (String × String)) (runs : List (String × RunDoc))
    (fbid : List (String × FeatDoc)) (groups : List (String × List FeatDoc))
    (target_hard : Nat) (hard_neg_dist_ft hard_neg_clock_hrs : ℚ) :
    List MatchedPairDoc → NegAcc → NegAcc
  | [], acc => acc
  | mp :: rest, acc =>
    if acc.samples.length ≥ target_hard then acc
    else
      let b_id := mp.run_b_feature_id
      match dictGet fbid b_id with
      | none => hardNegLoop S runs fbid groups target_hard hard_neg_dist_ft hard_neg_clock_hrs rest acc
      | some b_doc =>
        let b_rec := _feat_to_record b_doc
        let a_features := groupGet groups mp.run_a_run_id
        let acc' := hardNegInner S runs target_hard hard_neg_dist_ft hard_neg_clock_hrs
          mp b_rec b_id a_features acc
        hardNegLoop S runs fbid groups target_hard hard_neg_dist_ft hard_neg_clock_hrs rest acc'

/-- Easy-negative loop (lines 314–374), with the remaining attempt budget
as fuel (`max_easy_attempts − easy_attempts`) and `k` indexing the seeded
`random` stream: while fewer than `target_hard + target_easy` total
negatives and attempts remain, sample two distinct runs, pick one random
feature from each, and accept the pair as a label-0 "easy" row unless it is
matched, already collected, or closer than 50 ft. -/
def easyNegLoop (S : List (String × String)) (runs : List (String × RunDoc))
    (groups : List (String × List FeatDoc)) (all_run_ids : List String)
    (target_total : Nat) (stream : Nat → Nat) (dFeat : FeatDoc) :
    Nat → Nat → NegAcc → NegAcc
  | 0, _, acc => acc
  | fuel + 1, k, acc =>
    if acc.samples.length ≥ target_total then acc
    else if all_run_ids.length < 2 then acc
    else
      let n := all_run_ids.length
      let i1 := stream k % n
      let j := stream (k + 1) % (n - 1)
      let i2 := if j ≥ i1 then j + 1 else j
      let r1 := all_run_ids.getD i1 ""
      let r2 := all_run_ids.getD i2 ""
      let feats_r1 := groupGet groups r1
      let feats_r2 := groupGet groups r2
      if feats_r1 = [] ∨ feats_r2 = [] then
        easyNegLoop S runs groups all_run_ids target_total stream dFeat fuel (k + 2) acc
      else
        let a_doc := feats_r1.getD (stream (k + 2) % feats_r1.length) dFeat
        let b_doc := feats_r2.getD (stream (k + 3) % feats_r2.length) dFeat
        let a_id := a_doc.id
        let b_id := b_doc.id
        if (a_id, b_id) ∈ S then
          easyNegLoop S runs groups all_run_ids target_total stream dFeat fuel (k + 4) acc
        else if (a_id, b_id) ∈ acc.neg_pair_set then
          easyNegLoop S runs groups all_run_ids target_total stream dFeat fuel (k + 4) acc
        else
          let a_rec := _feat_to_record a_doc
          let b_rec := _feat_to_record b_doc
          let dist_diff := |a_rec.corrected_distance_ft - b_rec.corrected_distance_ft|
          if dist_diff < 50 then
            easyNegLoop S runs groups all_run_ids target_total stream dFeat fuel (k + 4) acc
          else
            let ctx := pairCtx runs r1 r2
            let fv := extract_features a_rec b_rec ctx
            let meta : SampleMeta :=
              { feature_a := a_id, feature_b := b_id, job_id := ""
                det_score := none, det_category := none, label := 0, neg_type := some "easy" }
            let acc' : NegAcc :=
              { samples := acc.samples ++ [(fv, meta)]
                neg_pair_set := acc.neg_pair_set ++ [(a_id, b_id)] }
            easyNegLoop S runs groups all_run_ids target_total stream dFeat fuel (k + 4) acc'

/-! ## build_dataset.py — shuffle and assembly -/

/-- Fisher–Yates draw driven by the seeded `np.random` stream, with the
pool's size as fuel: repeatedly pick the element at a stream-chosen index
and remove it.  Models `np.random.permutation(n)` applied to `range n`
(the pool is duplicate-free there, so erasing by value is erasing the
chosen position). -/
def fyShuffle (stream : Nat → Nat) : Nat → Nat → List Nat → List Nat
  | 0, _, _ => []
  | fuel + 1, k, pool =>
    match pool with
    | [] => []
    | p :: ps =>
      let i := stream k % (p :: ps).length
      let x := (p :: ps).getD i 0
      x :: fyShuffle stream fuel (k + 1) ((p :: ps).erase x)

/-- The index permutation `indices = np.random.permutation(len(X))`. -/
def permIndices (stream : Nat → Nat) (n : Nat) : List Nat :=
  fyShuffle stream n 0 (List.range n)

/-- A default feature document (never selected: the miner indexes inside
list bounds), needed to totalise list indexing. -/
def dFeatDoc : FeatDoc :=
  { id := "", run_id := "", event_type_canonical := none, event_type_raw := none
    corrected_distance_ft := none, log_distance_ft := none, clock_decimal := none
    depth_percent := none, length_in := none, width_in := none
    wall_thickness_in := none, joint_number := none, dist_to_upstream_weld_ft := none
    is_reference_point := false }

/-- Default audit row for totalised indexing during the shuffle. -/
def dMeta : SampleMeta :=
  { feature_a := "", feature_b := "", job_id := "", det_score := none
    det_category := none, label := 0, neg_type := none }

/-- Python `int()` on a rational: truncation toward zero. -/
def pyIntTrunc (q : ℚ) : Int := q.num.tdiv q.den

/-- `target_neg = int(n_pos * neg_pos_ratio)` (clamped at 0 for a negative
ratio, where Python's loops likewise collect nothing). -/
def targetNegOf (n_pos : Nat) (neg_pos_ratio : ℚ) : Nat :=
  (pyIntTrunc ((n_pos : ℚ) * neg_pos_ratio)).toNat

/-- `target_hard = int(target_neg * 0.6)` (60% hard).  At the claim's
concrete inputs the IEEE product `30 * 0.6` rounds to exactly `18.0`, so the
exact-rational model agrees with the source's float arithmetic there. -/
def targetHardOf (n_pos : Nat) (neg_pos_ratio : ℚ) : Nat :=
  (pyIntTrunc ((targetNegOf n_pos neg_pos_ratio : ℚ) * (6/10))).toNat

/-- `target_easy = target_neg - target_hard` (40% easy). -/
def targetEasyOf (n_pos : Nat) (neg_pos_ratio : ℚ) : Nat :=
  targetNegOf n_pos neg_pos_ratio - targetHardOf n_pos neg_pos_ratio

/-- All collected negatives: the hard-negative scan followed by the easy
loop, both over one shared accumulator (lines 230–374). -/
def negativeSamples (db : DBSnapshot) (mps : List MatchedPairDoc) (n_pos : Nat)
    (neg_pos_ratio hard_neg_dist_ft hard_neg_clock_hrs : ℚ) (pyStream : Nat → Nat) : NegAcc :=
  let S := matchedFeatureSet mps
  let runs := runs_by_id db
  let fbid := features_by_id db mps
  let groups := all_features_for_runs db mps
  let target_hard := targetHardOf n_pos neg_pos_ratio
  let target_easy := targetEasyOf n_pos neg_pos_ratio
  let afterHard := hardNegLoop S runs fbid groups target_hard hard_neg_dist_ft hard_neg_clock_hrs
    mps { samples := [], neg_pair_set := [] }
  let all_run_ids := groups.map (·.1)
  easyNegLoop S runs groups all_run_ids (target_hard + target_easy) pyStream dFeatDoc
    (target_easy * 20) 0 afterHard

/-- The dataset triple the builder returns on success. -/
structure BuildOutput where
  X : List (List ℚ)
  y : List Nat
  metadata : List SampleMeta
deriving DecidableEq

/-- The two fatal data-absence aborts (`sys.exit(1)` with a diagnostic). -/
inductive BuildError where
  | noMatchedPairs
  | noPositives
deriving DecidableEq

/-- Combine positives and negatives and shuffle rows, labels and metadata
in lockstep with one index permutation (lines 385–393). -/
def assembleOutput (db : DBSnapshot) (mps : List MatchedPairDoc)
    (neg_pos_ratio hard_neg_dist_ft hard_neg_clock_hrs : ℚ)
    (pyStream npStream : Nat → Nat) : BuildOutput :=
  let pos := positiveSamples db mps
  let negs := (negativeSamples db mps pos.length neg_pos_ratio hard_neg_dist_ft
    hard_neg_clock_hrs pyStream).samples
  let combined := pos ++ negs
  let Xs := combined.map (·.1)
  let ys := List.replicate pos.length 1 ++ List.replicate negs.length 0
  let ms := combined.map (·.2)
  let indices := permIndices npStream combined.length
  { X := indices.map (fun i => Xs.getD i [])
    y := indices.map (fun i => ys.getD i 0)
    metadata := indices.map (fun i => ms.getD i dMeta) }

/-- `build_dataset` (lines 62–401): probe matched pairs, abort when none;
mine positives, abort when none; otherwise mine negatives and emit the
shuffled dataset.  The seeded `random` / `np.random` generators are the two
explicit streams, fixed by the seed in the source. -/
def build_dataset (db : DBSnapshot)
    (neg_pos_ratio hard_neg_dist_ft hard_neg_clock_hrs : ℚ)
    (pyStream npStream : Nat → Nat) : Except BuildError BuildOutput :=
  let matched_pairs := probe_matched_pairs db
  if matched_pairs = [] then Except.error BuildError.noMatchedPairs
  else if (positiveSamples db matched_pairs).length = 0 then Except.error BuildError.noPositives
  else Except.ok (assembleOutput db matched_pairs neg_pos_ratio hard_neg_dist_ft
    hard_neg_clock_hrs pyStream npStream)

/-- The metadata of a successful build (empty for an aborted one); the
claims about emitted samples quantify over this list. -/
def okMetadata (r : Except BuildError BuildOutput) : List SampleMeta :=
  match r with
  | Except.ok o => o.metadata
  | Except.error _ => []

/-- Count of emitted rows whose negative-mining tag is `t`. -/
def countTagged (r : Except BuildError BuildOutput) (t : String) : Nat :=
  ((okMetadata r).filter (fun m => m.neg_type = some t)).length

/-- Count of emitted rows with the given label. -/
def countLabel (r : Except BuildError BuildOutput) (l : Nat) : Nat :=
  ((okMetadata r).filter (fun m => m.label = l)).length

/-! ## Concrete snapshots for witnesses and counterexamples

Batteries marks the rational field operations irreducible for elaboration;
the kernel is free to unfold them, and the concrete evaluations below need
the elaborator to agree, so restore default transparency locally. -/

attribute [local semireducible] Rat.mul Rat.add Rat.sub Rat.inv Rat.ofScientific

/-- A feature document at a given longitudinal position (everything else
minimal). -/
def mkFeat (i : String) (r : String) (pos : ℚ) : FeatDoc :=
  { dFeatDoc with
    id := i
    run_id := r
    event_type_canonical := some "METAL_LOSS"
    corrected_distance_ft := some pos }

/-- Two runs of ten features each, 100 ft apart within a run,
run-for-run at identical positions. -/
def c2feats : List FeatDoc :=
  (List.range 10).map (fun i => mkFeat (s!"a{i}") "A" (100 * i))
    ++ (List.range 10).map (fun i => mkFeat (s!"b{i}") "B" (100 * i))

/-- Ten matched pairs `(a_i, b_i)`, position-aligned, so every hard-negative
candidate is either the true match or ≥ 100 ft away. -/
def c2pairs : List MatchedPairDoc :=
  (List.range 10).map (fun i =>
    { job_id := "j", run_a_feature_id := s!"a{i}", run_b_feature_id := s!"b{i}"
      run_a_run_id := "A", run_b_run_id := "B", confidence_score := 1
      confidence_category := "HIGH" })

/-- The two runs behind `c2pairs`. -/
def c2runs : List RunDoc := [⟨"A", some 2000, some (85/100)⟩, ⟨"B", some 2005, some (85/100)⟩]

/-- Snapshot with 10 resolvable matched pairs and no near-miss hard-negative
candidates. -/
def c2db : DBSnapshot :=
  { collection_names := ["matchedpairs", "runs", "features"]
    matchedColl := fun n => if n = "matchedpairs" then c2pairs else []
    runColl := fun n => if n = "runs" then c2runs else []
    featColl := fun n => if n = "features" then c2feats else [] }

/-- A `random`-stream whose easy-negative attempts select runs (A, B) and
the feature pair `(a_(t mod 10), b_((t mod 10 + 1 + t div 10) mod 10))` on
attempt `t`: thirty pairwise-distinct, 100 ft-separated, unmatched pairs in
the first thirty attempts. -/
def c2stream (k : Nat) : Nat :=
  match k % 4 with
  | 0 => 0
  | 1 => 0
  | 2 => (k / 4) % 10
  | _ => ((k / 4) % 10 + 1 + (k / 4) / 10) % 10

/-- The all-zero stream: every easy-negative attempt picks `(a0, b0)`,
which is a true match and is always rejected. -/
def zeroStream : Nat → Nat := fun _ => 0

/-- Small snapshot: one matched pair `(a0, b0)` at position 0, spare
features `a1` (500 ft) and `b1` (1000 ft). -/
def wFeats : List FeatDoc :=
  [mkFeat "a0" "A" 0, mkFeat "a1" "A" 500, mkFeat "b0" "B" 0, mkFeat "b1" "B" 1000]

/-- The single matched pair of the small snapshot. -/
def wPairs : List MatchedPairDoc :=
  [{ job_id := "j", run_a_feature_id := "a0", run_b_feature_id := "b0"
     run_a_run_id := "A", run_b_run_id := "B", confidence_score := 1
     confidence_category := "HIGH" }]

/-- Small snapshot with one positive and room for two easy negatives. -/
def wDb : DBSnapshot :=
  { collection_names := ["matchedpairs", "runs", "features"]
    matchedColl := fun n => if n = "matchedpairs" then wPairs else []
    runColl := fun n => if n = "runs" then c2runs else []
    featColl := fun n => if n = "features" then wFeats else [] }

/-- Stream making the small snapshot's easy miner pick `(a1, b1)` on the
first attempt and `(b1, a1)` on the second — the same two records in the
two opposite orientations. -/
def wStream (k : Nat) : Nat :=
  if k = 2 ∨ k = 3 ∨ k = 4 ∨ k = 6 ∨ k = 7 then 1 else 0

/-- A snapshot with no collections at all. -/
def emptyDb : DBSnapshot :=
  { collection_names := [], matchedColl := fun _ => []
    runColl := fun _ => [], featColl := fun _ => [] }

/-- A snapshot whose matched pairs reference no loadable features: positives
resolve to nothing. -/
def noPosDb : DBSnapshot :=
  { collection_names := ["matchedpairs"]
    matchedColl := fun n => if n = "matchedpairs" then wPairs else []
    runColl := fun _ => [], featColl := fun _ => [] }

/-! ## Helper lemmas: feature extraction -/

theorem clock_delta_some_bounds (a b : ℚ) (ha0 : 0 ≤ a) (ha : a < 12) (hb0 : 0 ≤ b)
    (hb : b < 12) :
    0 ≤ _clock_delta_wrap_aware (some a) (some b) ∧
      _clock_delta_wrap_aware (some a) (some b) ≤ 6 := by
  have hlt : |a - b| < 12 := abs_sub_lt_iff.mpr ⟨by linarith, by linarith⟩
  have h0 : 0 ≤ |a - b| := abs_nonneg _
  simp only [_clock_delta_wrap_aware]
  split_ifs with h
  · constructor <;> linarith
  · constructor <;> linarith

theorem clock_delta_none_left (b : Option ℚ) : _clock_delta_wrap_aware none b = -1 := by
  cases b <;> rfl

theorem clock_delta_none_right (a : Option ℚ) : _clock_delta_wrap_aware a none = -1 := by
  cases a <;> rfl

theorem clock_delta_eq_neg_one_iff (a b : Option ℚ)
    (hoc : ∀ x, a = some x → 0 ≤ x ∧ x < 12) (hnc : ∀ x, b = some x → 0 ≤ x ∧ x < 12) :
    _clock_delta_wrap_aware a b = -1 ↔ a = none ∨ b = none := by
  cases a with
  | none => simp [clock_delta_none_left]
  | some x =>
    cases b with
    | none => simp [clock_delta_none_right]
    | some y =>
      obtain ⟨hx0, hx⟩ := hoc x rfl
      obtain ⟨hy0, hy⟩ := hnc y rfl
      have := clock_delta_some_bounds x y hx0 hx hy0 hy
      simp only [reduceCtorEq, or_self, iff_false]
      intro hcontra
      rw [hcontra] at this
      linarith [this.1]

theorem safe_abs_delta_eq_neg_one_iff (a b : Option ℚ) :
    _safe_abs_delta a b = -1 ↔ a = none ∨ b = none := by
  cases a with
  | none => simp [_safe_abs_delta]
  | some x =>
    cases b with
    | none => simp [_safe_abs_delta]
    | some y =>
      simp only [_safe_abs_delta, reduceCtorEq, or_self, iff_false]
      intro hcontra
      have := abs_nonneg (x - y)
      rw [hcontra] at this
      linarith

theorem lookupCompat_eq_some_mem {k : String × String} {v : ℚ}
    {l : List ((String × String) × ℚ)} (h : lookupCompat k l = some v) : (k, v) ∈ l := by
  induction l with
  | nil => simp [lookupCompat] at h
  | cons e rest ih =>
    obtain ⟨k', v'⟩ := e
    rw [lookupCompat] at h
    split_ifs at h with hk
    · cases h; cases hk; exact List.mem_cons_self _ _
    · exact List.mem_cons_of_mem _ (ih h)

theorem lookupCompat_of_mem {k : String × String} {v : ℚ}
    {l : List ((String × String) × ℚ)} (hnd : (l.map (·.1)).Nodup) (hm : (k, v) ∈ l) :
    lookupCompat k l = some v := by
  induction l with
  | nil => simp at hm
  | cons e rest ih =>
    obtain ⟨k', v'⟩ := e
    rw [List.map_cons, List.nodup_cons] at hnd
    rw [lookupCompat]
    rcases List.mem_cons.mp hm with heq | hmem
    · cases heq; simp
    · split_ifs with hk
      · exfalso
        cases hk
        exact hnd.1 (List.mem_map.mpr ⟨(k, v), hmem, rfl⟩)
      · exact ih hnd.2 hmem

theorem TYPE_COMPAT_keys_nodup : (TYPE_COMPAT.map (·.1)).Nodup := by decide

theorem TYPE_COMPAT_swap_closed :
    ∀ e ∈ TYPE_COMPAT, ((e.1.2, e.1.1), e.2) ∈ TYPE_COMPAT := by decide

theorem lookupCompat_swap (t1 t2 : String) :
    lookupCompat (t1, t2) TYPE_COMPAT = lookupCompat (t2, t1) TYPE_COMPAT := by
  cases h : lookupCompat (t1, t2) TYPE_COMPAT with
  | some v =>
    have hmem := lookupCompat_eq_some_mem h
    have hswap := TYPE_COMPAT_swap_closed _ hmem
    exact (lookupCompat_of_mem TYPE_COMPAT_keys_nodup hswap).symm
  | none =>
    cases h2 : lookupCompat (t2, t1) TYPE_COMPAT with
    | none => rfl
    | some w =>
      have hmem := lookupCompat_eq_some_mem h2
      have hswap := TYPE_COMPAT_swap_closed _ hmem
      have := lookupCompat_of_mem TYPE_COMPAT_keys_nodup hswap
      rw [h] at this
      cases this

theorem TYPE_COMPAT_values_nonneg : ∀ e ∈ TYPE_COMPAT, 0 ≤ e.2 := by decide

theorem type_compat_score_nonneg (t1 t2 : String) : 0 ≤ _type_compat_score t1 t2 := by
  rw [_type_compat_score]
  split_ifs with h
  · norm_num
  · cases hl : lookupCompat (t1, t2) TYPE_COMPAT with
    | none => simp
    | some v =>
      have := TYPE_COMPAT_values_nonneg _ (lookupCompat_eq_some_mem hl)
      simpa using this

theorem same_weld_segment_zero_or_one (a b : AnomalyRecord) :
    _same_weld_segment a b = 0 ∨ _same_weld_segment a b = 1 := by
  rw [_same_weld_segment]
  rcases a.joint_number with _ | ja <;> rcases b.joint_number with _ | jb <;>
    dsimp only <;> split_ifs <;> simp

theorem getD_neg_one_iff (o : Option ℚ) (h : o ≠ some (-1)) :
    o.getD (-1) = -1 ↔ o = none := by
  cases o with
  | none => simp
  | some x =>
    simp only [Option.getD_some, reduceCtorEq, iff_false]
    intro hx
    exact h (by rw [hx])

/-- A record with the given joint number and longitudinal position, all
optional measurements absent. -/
def mkRec (jn : Option Int) (pos : ℚ) : AnomalyRecord :=
  { feature_id := "f", run_id := "r", event_type := "METAL_LOSS"
    corrected_distance_ft := pos, log_distance_ft := pos
    clock_position_hrs := none, depth_percent := none, length_in := none
    width_in := none, wall_thickness_in := none, joint_number := jn
    dist_to_upstream_weld_ft := none }

/-- Joint number 1, position 0. -/
def recJ1 : AnomalyRecord := mkRec (some 1) 0

/-- Joint number 2, position 0 — same position, different joint. -/
def recJ2 : AnomalyRecord := mkRec (some 2) 0

/-! ## Claim C3 — same-segment indicator -/

/-- C3 counterexample: two records whose joint numbers are present and
unequal while their positions coincide (distance difference 0 < 40).  The
code returns 0.0 with no proximity fallback; the claim's rule ("otherwise
it falls back to 1.0 if the distance is below the threshold") yields
1.0. -/
theorem same_weld_segment_spec_divergence :
    recJ1.joint_number = some 1 ∧ recJ2.joint_number = some 2 ∧
    |recJ1.corrected_distance_ft - recJ2.corrected_distance_ft| < 40 ∧
    _same_weld_segment recJ1 recJ2 = 0 ∧ same_weld_segment_spec recJ1 recJ2 = 1 := by
  decide

/-- C3 amended: when both joint numbers are present the slot is 1.0 exactly
for equal joints and 0.0 otherwise (no proximity fallback); the fallback to
the 40 ft proximity test applies only when at least one joint number is
absent; the slot is always 0.0 or 1.0, never the sentinel. -/
theorem same_weld_segment_cases (a b : AnomalyRecord) :
    (∀ ja jb, a.joint_number = some ja → b.joint_number = some jb →
      _same_weld_segment a b = if ja = jb then 1 else 0) ∧
    ((a.joint_number = none ∨ b.joint_number = none) →
      _same_weld_segment a b =
        if |a.corrected_distance_ft - b.corrected_distance_ft| < 40 then 1 else 0) ∧
    (_same_weld_segment a b = 0 ∨ _same_weld_segment a b = 1) := by
  refine ⟨?_, ?_, same_weld_segment_zero_or_one a b⟩
  · intro ja jb hja hjb
    rw [_same_weld_segment, hja, hjb]
  · intro habs
    rw [_same_weld_segment]
    rcases habs with h | h
    · rw [h]
    · rw [h]; rcases a.joint_number with _ | ja <;> rfl

/-- Witness for C3's amended theorem at the counterexample records. -/
theorem same_weld_segment_cases_witness :
    _same_weld_segment recJ1 recJ2 = if (1 : Int) = 2 then 1 else 0 :=
  (same_weld_segment_cases recJ1 recJ2).1 1 2 rfl rfl

/-! ## Claim C5 — wrap-aware clock delta -/

/-- C5 confirmed: for clock positions in `[0, 12)` the wrap-aware delta
lies in `[0, 6]`; an absent side yields the sentinel `-1`. -/
theorem clock_delta_wrap_aware_in_range (a b : ℚ) (ha0 : 0 ≤ a) (ha : a < 12)
    (hb0 : 0 ≤ b) (hb : b < 12) :
    (0 ≤ _clock_delta_wrap_aware (some a) (some b) ∧
      _clock_delta_wrap_aware (some a) (some b) ≤ 6) ∧
    (∀ x : Option ℚ, _clock_delta_wrap_aware none x = -1 ∧
      _clock_delta_wrap_aware x none = -1) :=
  ⟨clock_delta_some_bounds a b ha0 ha hb0 hb,
   fun x => ⟨clock_delta_none_left x, clock_delta_none_right x⟩⟩

/-- Witness for C5 at clocks 3 and 11 (wrap: |3−11| = 8 > 6, so 4). -/
theorem clock_delta_wrap_aware_in_range_witness :
    0 ≤ _clock_delta_wrap_aware (some (3:ℚ)) (some 11) ∧
      _clock_delta_wrap_aware (some (3:ℚ)) (some 11) ≤ 6 :=
  (clock_delta_wrap_aware_in_range 3 11 (by norm_num) (by norm_num) (by norm_num)
    (by norm_num)).1

/-! ## Claim C7 — type-compatibility symmetry and triage -/

/-- C7 confirmed: the compatibility score is symmetric for every pair of
event types; identical types score 1.0; non-identical pairs absent from the
table score 0.0. -/
theorem type_compat_symm_triage (t1 t2 : String) :
    _type_compat_score t1 t2 = _type_compat_score t2 t1 ∧
    (t1 = t2 → _type_compat_score t1 t2 = 1) ∧
    (t1 ≠ t2 → lookupCompat (t1, t2) TYPE_COMPAT = none → _type_compat_score t1 t2 = 0) := by
  refine ⟨?_, ?_, ?_⟩
  · by_cases h : t1 = t2
    · subst h; rfl
    · rw [_type_compat_score, _type_compat_score, if_neg h,
        if_neg (fun e => h e.symm), lookupCompat_swap]
  · intro h; rw [_type_compat_score, if_pos h]
  · intro h hnone; rw [_type_compat_score, if_neg h, hnone]; rfl

/-- Witness for C7: a table pair is symmetric with value 0.9; an identical
unknown type scores 1; a non-identical unknown pair scores 0. -/
theorem type_compat_symm_triage_witness :
    _type_compat_score "METAL_LOSS" "CORROSION" = _type_compat_score "CORROSION" "METAL_LOSS" ∧
    _type_compat_score "FOO" "FOO" = 1 ∧ _type_compat_score "FOO" "BAR" = 0 :=
  ⟨(type_compat_symm_triage "METAL_LOSS" "CORROSION").1,
   (type_compat_symm_triage "FOO" "FOO").2.1 rfl,
   (type_compat_symm_triage "FOO" "BAR").2.2 (by decide) (by decide)⟩

/-! ## Claim C4 — feature-vector contract -/

/-- Observation with clock 0 at position 0. -/
def cObs1 : AnomalyRecord := { mkRec none 0 with clock_position_hrs := some 0 }

/-- Observation with the out-of-dial clock value 13 (the record type allows
any number) at position 0. -/
def cObs2 : AnomalyRecord := { mkRec none 0 with clock_position_hrs := some 13 }

/-- Context supplying the DTW residual with value −1, the sentinel itself. -/
def cCtx : PairContext :=
  { run_gap_years := 5, api_1163_tool_weight := 85/100
    dtw_residual := some (-1), icp_residual := none, anchor_density := none }

/-- C4 counterexample: with both clocks present (0 and 13) the clock slot
computes 12 − 13 = −1, and with a supplied DTW residual of −1 the DTW slot
is −1 — the sentinel appears although the corresponding optional inputs are
present, so "sentinel iff absent" fails for an arbitrary context. -/
theorem extract_features_sentinel_collision :
    cObs1.clock_position_hrs = some 0 ∧ cObs2.clock_position_hrs = some 13 ∧
    cCtx.dtw_residual = some (-1) ∧
    (extract_features cObs1 cObs2 cCtx).getD 1 0 = -1 ∧
    (extract_features cObs1 cObs2 cCtx).getD 10 0 = -1 := by
  decide

/-- C4 amended: for clocks within the 12-hour dial and supplied alignment
signals different from −1 (the documented domains), the vector has exactly
13 slots; each optional-derived slot equals the sentinel −1 iff its
optional inputs are absent; the same-segment and type-compatibility slots
are never the sentinel. -/
theorem extract_features_contract (o n : AnomalyRecord) (c : PairContext)
    (hoc : ∀ x, o.clock_position_hrs = some x → 0 ≤ x ∧ x < 12)
    (hnc : ∀ x, n.clock_position_hrs = some x → 0 ≤ x ∧ x < 12)
    (hdtw : c.dtw_residual ≠ some (-1)) (hicp : c.icp_residual ≠ some (-1))
    (hanc : c.anchor_density ≠ some (-1)) :
    (extract_features o n c).length = NUM_FEATURES ∧
    ((extract_features o n c).getD 1 0 = -1 ↔
      o.clock_position_hrs = none ∨ n.clock_position_hrs = none) ∧
    ((extract_features o n c).getD 3 0 = -1 ↔
      o.depth_percent = none ∨ n.depth_percent = none) ∧
    ((extract_features o n c).getD 4 0 = -1 ↔
      o.length_in = none ∨ n.length_in = none) ∧
    ((extract_features o n c).getD 5 0 = -1 ↔
      o.width_in = none ∨ n.width_in = none) ∧
    ((extract_features o n c).getD 6 0 = -1 ↔
      o.wall_thickness_in = none ∨ n.wall_thickness_in = none) ∧
    ((extract_features o n c).getD 10 0 = -1 ↔ c.dtw_residual = none) ∧
    ((extract_features o n c).getD 11 0 = -1 ↔ c.icp_residual = none) ∧
    ((extract_features o n c).getD 12 0 = -1 ↔ c.anchor_density = none) ∧
    (extract_features o n c).getD 2 0 ≠ -1 ∧
    (extract_features o n c).getD 7 0 ≠ -1 := by
  refine ⟨rfl, ?_, ?_, ?_, ?_, ?_, ?_, ?_, ?_, ?_, ?_⟩
  · exact clock_delta_eq_neg_one_iff _ _ hoc hnc
  · exact safe_abs_delta_eq_neg_one_iff _ _
  · exact safe_abs_delta_eq_neg_one_iff _ _
  · exact safe_abs_delta_eq_neg_one_iff _ _
  · exact safe_abs_delta_eq_neg_one_iff _ _
  · exact getD_neg_one_iff _ hdtw
  · exact getD_neg_one_iff _ hicp
  · exact getD_neg_one_iff _ hanc
  · rcases same_weld_segment_zero_or_one o n with h | h <;>
      · show _same_weld_segment o n ≠ -1
        rw [h]; norm_num
  · show _type_compat_score o.event_type n.event_type ≠ -1
    have := type_compat_score_nonneg o.event_type n.event_type
    intro hcontra
    rw [hcontra] at this
    linarith

/-- Witness for C4's amended theorem: all optional inputs present and in
domain, so no slot is the sentinel. -/
theorem extract_features_contract_witness :
    ((extract_features { mkRec none 0 with clock_position_hrs := some 3 }
        { mkRec none 10 with clock_position_hrs := some 4 }
        ⟨5, 85/100, some 2, some 3, some 4⟩).getD 10 0 = -1 ↔
      (⟨5, 85/100, some 2, some 3, some 4⟩ : PairContext).dtw_residual = none) ∧
    (extract_features { mkRec none 0 with clock_position_hrs := some 3 }
        { mkRec none 10 with clock_position_hrs := some 4 }
        ⟨5, 85/100, some 2, some 3, some 4⟩).getD 7 0 ≠ -1 := by
  have h := extract_features_contract
    { mkRec none 0 with clock_position_hrs := some 3 }
    { mkRec none 10 with clock_position_hrs := some 4 }
    ⟨5, 85/100, some 2, some 3, some 4⟩
    (by intro x hx; cases hx; constructor <;> norm_num)
    (by intro x hx; cases hx; constructor <;> norm_num)
    (by decide) (by decide) (by decide)
  exact ⟨h.2.2.2.2.2.2.1, h.2.2.2.2.2.2.2.2.2.2⟩

/-! ## Claim C6 — totality of feature extraction -/

/-- C6 confirmed: `extract_features` is a total function of its three
typed inputs (it is defined for all of them in this embedding); the vector
always has exactly 13 slots, and every absent optional input puts the
sentinel in its slot rather than failing. -/
theorem extract_features_total (o n : AnomalyRecord) (c : PairContext) :
    (extract_features o n c).length = NUM_FEATURES ∧
    ((o.clock_position_hrs = none ∨ n.clock_position_hrs = none) →
      (extract_features o n c).getD 1 0 = -1) ∧
    ((o.depth_percent = none ∨ n.depth_percent = none) →
      (extract_features o n c).getD 3 0 = -1) ∧
    ((o.length_in = none ∨ n.length_in = none) →
      (extract_features o n c).getD 4 0 = -1) ∧
    ((o.width_in = none ∨ n.width_in = none) →
      (extract_features o n c).getD 5 0 = -1) ∧
    ((o.wall_thickness_in = none ∨ n.wall_thickness_in = none) →
      (extract_features o n c).getD 6 0 = -1) ∧
    (c.dtw_residual = none → (extract_features o n c).getD 10 0 = -1) ∧
    (c.icp_residual = none → (extract_features o n c).getD 11 0 = -1) ∧
    (c.anchor_density = none → (extract_features o n c).getD 12 0 = -1) := by
  refine ⟨rfl, ?_, ?_, ?_, ?_, ?_, ?_, ?_, ?_⟩
  · intro habs
    show _clock_delta_wrap_aware o.clock_position_hrs n.clock_position_hrs = -1
    rcases habs with h | h <;> rw [h]
    · exact clock_delta_none_left _
    · exact clock_delta_none_right _
  · rintro (h | h) <;> exact (safe_abs_delta_eq_neg_one_iff _ _).mpr (by simp [h])
  · rintro (h | h) <;> exact (safe_abs_delta_eq_neg_one_iff _ _).mpr (by simp [h])
  · rintro (h | h) <;> exact (safe_abs_delta_eq_neg_one_iff _ _).mpr (by simp [h])
  · rintro (h | h) <;> exact (safe_abs_delta_eq_neg_one_iff _ _).mpr (by simp [h])
  · intro h; show (c.dtw_residual.getD (-1)) = -1; rw [h]; rfl
  · intro h; show (c.icp_residual.getD (-1)) = -1; rw [h]; rfl
  · intro h; show (c.anchor_density.getD (-1)) = -1; rw [h]; rfl

/-- Witness for C6 at a record pair with everything absent. -/
theorem extract_features_total_witness :
    (extract_features (mkRec none 0) (mkRec none 7) ⟨5, 85/100, none, none, none⟩).length
        = NUM_FEATURES ∧
    (extract_features (mkRec none 0) (mkRec none 7) ⟨5, 85/100, none, none, none⟩).getD 1 0
        = -1 :=
  ⟨(extract_features_total (mkRec none 0) (mkRec none 7) ⟨5, 85/100, none, none, none⟩).1,
   (extract_features_total (mkRec none 0) (mkRec none 7)
      ⟨5, 85/100, none, none, none⟩).2.1 (Or.inl rfl)⟩

/-! ## Helper lemmas: dataset builder -/

/-- Invariant of the negative-mining accumulator: the dedup set mirrors the
collected metadata's ordered pairs, every collected row is labelled 0, the
set is duplicate-free, and no collected pair is a matched pair. -/
structure NegInv (S : List (String × String)) (acc : NegAcc) : Prop where
  pairs_eq : acc.samples.map (fun p => pairOf p.2) = acc.neg_pair_set
  labels : ∀ p ∈ acc.samples, p.2.label = 0
  nodup : acc.neg_pair_set.Nodup
  noleak : ∀ q ∈ acc.neg_pair_set, q ∉ S

theorem NegInv.init (S : List (String × String)) :
    NegInv S { samples := [], neg_pair_set := [] } where
  pairs_eq := rfl
  labels := by intro p hp; cases hp
  nodup := List.nodup_nil
  noleak := by intro q hq; cases hq

theorem NegInv.push {S : List (String × String)} {acc : NegAcc} (h : NegInv S acc)
    (fv : List ℚ) (aid bid jid : String) (nt : Option String)
    (hq : (aid, bid) ∉ S) (hdup : (aid, bid) ∉ acc.neg_pair_set) :
    NegInv S
      { samples := acc.samples ++
          [(fv, { feature_a := aid, feature_b := bid, job_id := jid, det_score := none
                  det_category := none, label := 0, neg_type := nt })]
        neg_pair_set := acc.neg_pair_set ++ [(aid, bid)] } where
  pairs_eq := by
    dsimp only
    rw [List.map_append, h.pairs_eq]
    rfl
  labels := by
    intro p hp
    rcases List.mem_append.mp hp with hp | hp
    · exact h.labels p hp
    · rw [List.mem_singleton.mp hp]
  nodup := by
    show (acc.neg_pair_set ++ [(aid, bid)]).Nodup
    exact (List.perm_append_singleton _ _).symm.nodup
      (List.nodup_cons.mpr ⟨hdup, h.nodup⟩)
  noleak := by
    intro q hq'
    rcases List.mem_append.mp hq' with hq' | hq'
    · exact h.noleak q hq'
    · rw [List.mem_singleton.mp hq']; exact hq

theorem hardNegInner_inv (S : List (String × String)) (runs : List (String × RunDoc))
    (target : Nat) (hd hc : ℚ) (mp : MatchedPairDoc) (b_rec : AnomalyRecord)
    (b_id : String) (l : List FeatDoc) :
    ∀ (acc : NegAcc), NegInv S acc →
      NegInv S (hardNegInner S runs target hd hc mp b_rec b_id l acc) := by
  induction l with
  | nil => intro acc h; exact h
  | cons a_doc rest ih =>
    intro acc h
    rw [hardNegInner]
    dsimp only
    split_ifs <;> first
      | exact h
      | exact ih acc h
      | exact ih _ (h.push _ _ _ _ _ (by assumption) (by assumption))

theorem hardNegLoop_inv (S : List (String × String)) (runs : List (String × RunDoc))
    (fbid : List (String × FeatDoc)) (groups : List (String × List FeatDoc))
    (target : Nat) (hd hc : ℚ) (mps : List MatchedPairDoc) :
    ∀ (acc : NegAcc), NegInv S acc →
      NegInv S (hardNegLoop S runs fbid groups target hd hc mps acc) := by
  induction mps with
  | nil => intro acc h; exact h
  | cons mp rest ih =>
    intro acc h
    rw [hardNegLoop]
    dsimp only
    split_ifs with h1
    · exact h
    · rcases hget : dictGet fbid mp.run_b_feature_id with _ | b_doc
      · exact ih acc h
      · exact ih _ (hardNegInner_inv _ _ _ _ _ _ _ _ _ acc h)

theorem easyNegLoop_inv (S : List (String × String)) (runs : List (String × RunDoc))
    (groups : List (String × List FeatDoc)) (all_run_ids : List String)
    (target : Nat) (stream : Nat → Nat) (dFeat : FeatDoc) (fuel : Nat) :
    ∀ (k : Nat) (acc : NegAcc), NegInv S acc →
      NegInv S (easyNegLoop S runs groups all_run_ids target stream dFeat fuel k acc) := by
  induction fuel with
  | zero => intro k acc h; exact h
  | succ fuel ih =>
    intro k acc h
    rw [easyNegLoop]
    dsimp only
    split_ifs <;> first
      | exact h
      | exact ih _ acc h
      | exact ih _ _ (h.push _ _ _ _ _ (by assumption) (by assumption))

theorem negativeSamples_inv (db : DBSnapshot) (mps : List MatchedPairDoc) (n_pos : Nat)
    (ratio hd hc : ℚ) (ps : Nat → Nat) :
    NegInv (matchedFeatureSet mps) (negativeSamples db mps n_pos ratio hd hc ps) := by
  rw [negativeSamples]
  exact easyNegLoop_inv _ _ _ _ _ _ _ _ _ _
    (hardNegLoop_inv _ _ _ _ _ _ _ _ _ (NegInv.init _))

theorem positiveSamples_label (db : DBSnapshot) (mps : List MatchedPairDoc) :
    ∀ p ∈ positiveSamples db mps, p.2.label = 1 := by
  intro p hp
  rw [positiveSamples] at hp
  dsimp only at hp
  rcases List.mem_filterMap.mp hp with ⟨mp, _, hf⟩
  rcases h1 : dictGet (features_by_id db mps) mp.run_a_feature_id with _ | a_doc <;>
    rw [h1] at hf
  · cases hf
  · rcases h2 : dictGet (features_by_id db mps) mp.run_b_feature_id with _ | b_doc <;>
      rw [h2] at hf
    · cases hf
    · cases hf; rfl

theorem matchedFeatureSet_swap {mps : List MatchedPairDoc} {x y : String}
    (h : (x, y) ∈ matchedFeatureSet mps) : (y, x) ∈ matchedFeatureSet mps := by
  induction mps with
  | nil => cases h
  | cons mp rest ih =>
    rw [matchedFeatureSet] at h ⊢
    rcases List.mem_cons.mp h with h1 | h1
    · cases h1
      exact List.mem_cons_of_mem _ (List.mem_cons_self _ _)
    · rcases List.mem_cons.mp h1 with h2 | h2
      · cases h2
        exact List.mem_cons_self _ _
      · exact List.mem_cons_of_mem _ (List.mem_cons_of_mem _ (ih h2))

theorem fyShuffle_perm (stream : Nat → Nat) (fuel : Nat) :
    ∀ (k : Nat) (pool : List Nat), pool.length ≤ fuel →
      List.Perm (fyShuffle stream fuel k pool) pool := by
  induction fuel with
  | zero =>
    intro k pool hlen
    rw [Nat.le_zero] at hlen
    rw [List.length_eq_zero] at hlen
    rw [hlen, fyShuffle]
  | succ fuel ih =>
    intro k pool hlen
    match pool with
    | [] => rw [fyShuffle]
    | p :: ps =>
      rw [fyShuffle]
      have hipos : stream k % (p :: ps).length < (p :: ps).length :=
        Nat.mod_lt _ (by simp)
      have hx : (p :: ps).getD (stream k % (p :: ps).length) 0 ∈ (p :: ps) := by
        rw [List.getD_eq_getElem _ _ hipos]
        exact List.getElem_mem hipos
      have herase : ((p :: ps).erase ((p :: ps).getD (stream k % (p :: ps).length) 0)).length ≤ fuel := by
        rw [List.length_erase_of_mem hx]
        simp only [List.length_cons] at hlen ⊢
        omega
      exact ((ih (k + 1) _ herase).cons _).trans (List.perm_cons_erase hx).symm

theorem permIndices_perm (stream : Nat → Nat) (n : Nat) :
    List.Perm (permIndices stream n) (List.range n) :=
  fyShuffle_perm stream n 0 (List.range n) (by rw [List.length_range])

theorem map_getD_range {α : Type} (l : List α) (d : α) :
    (List.range l.length).map (fun i => l.getD i d) = l := by
  apply List.ext_getElem
  · rw [List.length_map, List.length_range]
  · intro i h1 h2
    rw [List.getElem_map, List.getElem_range]
    rw [List.length_map, List.length_range] at h1
    exact List.getD_eq_getElem l d h2

/-- The shuffled metadata is a permutation of the concatenated positive and
negative metadata. -/
theorem assembleOutput_metadata_perm (db : DBSnapshot) (mps : List MatchedPairDoc)
    (ratio hd hc : ℚ) (ps ns : Nat → Nat) :
    List.Perm (assembleOutput db mps ratio hd hc ps ns).metadata
      ((positiveSamples db mps
        ++ (negativeSamples db mps (positiveSamples db mps).length ratio hd hc ps).samples).map
          (fun p => p.2)) := by
  have key : ∀ (C : List (List ℚ × SampleMeta)),
      List.Perm ((permIndices ns C.length).map (fun i => (C.map (fun p => p.2)).getD i dMeta))
        (C.map (fun p => p.2)) := by
    intro C
    have h1 := (permIndices_perm ns C.length).map
      (fun i => (C.map (fun p => p.2)).getD i dMeta)
    refine h1.trans ?_
    have h2 : C.length = (C.map (fun p => p.2)).length := (List.length_map _ _).symm
    rw [h2, map_getD_range]
  simp only [assembleOutput]
  exact key _

/-- A successful build's metadata is a permutation of the positive metadata
followed by the negative metadata; an aborted build has none. -/
theorem okMetadata_cases (db : DBSnapshot) (ratio hd hc : ℚ) (ps ns : Nat → Nat) :
    okMetadata (build_dataset db ratio hd hc ps ns) = [] ∨
    List.Perm (okMetadata (build_dataset db ratio hd hc ps ns))
      ((positiveSamples db (probe_matched_pairs db)
        ++ (negativeSamples db (probe_matched_pairs db)
            (positiveSamples db (probe_matched_pairs db)).length ratio hd hc ps).samples).map
          (fun p => p.2)) := by
  rw [build_dataset]
  by_cases h1 : probe_matched_pairs db = []
  · rw [if_pos h1]; left; rfl
  · rw [if_neg h1]
    by_cases h2 : (positiveSamples db (probe_matched_pairs db)).length = 0
    · rw [if_pos h2]; left; rfl
    · rw [if_neg h2]; right
      exact assembleOutput_metadata_perm db (probe_matched_pairs db) ratio hd hc ps ns

theorem posMeta_filter0 (db : DBSnapshot) (P : List MatchedPairDoc) :
    ((positiveSamples db P).map (fun p => p.2)).filter (fun m => m.label = 0) = [] := by
  rw [List.filter_eq_nil_iff]
  intro m hm
  rcases List.mem_map.mp hm with ⟨p, hp, rfl⟩
  have := positiveSamples_label db P p hp
  simp [this]

theorem posMeta_filter1 (db : DBSnapshot) (P : List MatchedPairDoc) :
    ((positiveSamples db P).map (fun p => p.2)).filter (fun m => m.label = 1)
      = (positiveSamples db P).map (fun p => p.2) := by
  rw [List.filter_eq_self]
  intro m hm
  rcases List.mem_map.mp hm with ⟨p, hp, rfl⟩
  have := positiveSamples_label db P p hp
  simp [this]

theorem negMeta_filter0 (db : DBSnapshot) (P : List MatchedPairDoc) (n : Nat)
    (ratio hd hc : ℚ) (ps : Nat → Nat) :
    (((negativeSamples db P n ratio hd hc ps).samples.map (fun p => p.2)).filter
        (fun m => m.label = 0))
      = (negativeSamples db P n ratio hd hc ps).samples.map (fun p => p.2) := by
  rw [List.filter_eq_self]
  intro m hm
  rcases List.mem_map.mp hm with ⟨p, hp, rfl⟩
  have := (negativeSamples_inv db P n ratio hd hc ps).labels p hp
  simp [this]

theorem negMeta_filter1 (db : DBSnapshot) (P : List MatchedPairDoc) (n : Nat)
    (ratio hd hc : ℚ) (ps : Nat → Nat) :
    (((negativeSamples db P n ratio hd hc ps).samples.map (fun p => p.2)).filter
        (fun m => m.label = 1)) = [] := by
  rw [List.filter_eq_nil_iff]
  intro m hm
  rcases List.mem_map.mp hm with ⟨p, hp, rfl⟩
  have := (negativeSamples_inv db P n ratio hd hc ps).labels p hp
  simp [this]

/-- Label counts of a build: zero on abort, otherwise the positive count is
the positive-sample count and the label-0 count is the collected-negative
count. -/
theorem build_counts (db : DBSnapshot) (ratio hd hc : ℚ) (ps ns : Nat → Nat) :
    (countLabel (build_dataset db ratio hd hc ps ns) 1 = 0 ∧
      countLabel (build_dataset db ratio hd hc ps ns) 0 = 0) ∨
    (countLabel (build_dataset db ratio hd hc ps ns) 1
        = (positiveSamples db (probe_matched_pairs db)).length ∧
      countLabel (build_dataset db ratio hd hc ps ns) 0
        = (negativeSamples db (probe_matched_pairs db)
            (positiveSamples db (probe_matched_pairs db)).length ratio hd hc ps).samples.length) := by
  rcases okMetadata_cases db ratio hd hc ps ns with h | h
  · left
    constructor <;> (rw [countLabel, h]; rfl)
  · right
    constructor
    · rw [countLabel, (h.filter (fun m => m.label = 1)).length_eq, List.map_append,
        List.filter_append, posMeta_filter1, negMeta_filter1, List.append_nil,
        List.length_map]
    · rw [countLabel, (h.filter (fun m => m.label = 0)).length_eq, List.map_append,
        List.filter_append, posMeta_filter0, negMeta_filter0, List.nil_append,
        List.length_map]

theorem hardNegInner_len (S : List (String × String)) (runs : List (String × RunDoc))
    (target : Nat) (hd hc : ℚ) (mp : MatchedPairDoc) (b_rec : AnomalyRecord)
    (b_id : String) (l : List FeatDoc) :
    ∀ (acc : NegAcc), acc.samples.length ≤ target →
      (hardNegInner S runs target hd hc mp b_rec b_id l acc).samples.length ≤ target := by
  induction l with
  | nil => intro acc h; exact h
  | cons a_doc rest ih =>
    intro acc h
    rw [hardNegInner]
    dsimp only
    split_ifs <;> first
      | exact h
      | exact ih acc h
      | exact ih _ (by simp; omega)

theorem hardNegLoop_len (S : List (String × String)) (runs : List (String × RunDoc))
    (fbid : List (String × FeatDoc)) (groups : List (String × List FeatDoc))
    (target : Nat) (hd hc : ℚ) (mps : List MatchedPairDoc) :
    ∀ (acc : NegAcc), acc.samples.length ≤ target →
      (hardNegLoop S runs fbid groups target hd hc mps acc).samples.length ≤ target := by
  induction mps with
  | nil => intro acc h; exact h
  | cons mp rest ih =>
    intro acc h
    rw [hardNegLoop]
    dsimp only
    split_ifs with h1
    · exact h
    · rcases hget : dictGet fbid mp.run_b_feature_id with _ | b_doc
      · exact ih acc h
      · exact ih _ (hardNegInner_len _ _ _ _ _ _ _ _ _ acc h)

theorem easyNegLoop_len (S : List (String × String)) (runs : List (String × RunDoc))
    (groups : List (String × List FeatDoc)) (all_run_ids : List String)
    (target : Nat) (stream : Nat → Nat) (dFeat : FeatDoc) (fuel : Nat) :
    ∀ (k : Nat) (acc : NegAcc), acc.samples.length ≤ target →
      (easyNegLoop S runs groups all_run_ids target stream dFeat fuel k acc).samples.length
        ≤ target := by
  induction fuel with
  | zero => intro k acc h; exact h
  | succ fuel ih =>
    intro k acc h
    rw [easyNegLoop]
    dsimp only
    split_ifs <;> first
      | exact h
      | exact ih _ acc h
      | exact ih _ _ (by simp; omega)

/-- The loops never collect more than `target_hard + target_easy`
negatives. -/
theorem negativeSamples_len (db : DBSnapshot) (mps : List MatchedPairDoc) (n_pos : Nat)
    (ratio hd hc : ℚ) (ps : Nat → Nat) :
    (negativeSamples db mps n_pos ratio hd hc ps).samples.length
      ≤ targetHardOf n_pos ratio + targetEasyOf n_pos ratio := by
  rw [negativeSamples]
  apply easyNegLoop_len
  have h1 := hardNegLoop_len (matchedFeatureSet mps) (runs_by_id db) (features_by_id db mps)
    (all_features_for_runs db mps) (targetHardOf n_pos ratio) hd hc mps
    { samples := [], neg_pair_set := [] } (Nat.zero_le _)
  omega

/-! ## Claim C1 — leakage invariant -/

/-- C1 confirmed: every sample a build emits with label 0 has an identifier
pair outside the matched-pair set in both orientations — no confirmed match
can be emitted as a negative, whatever the snapshot or the random
streams. -/
theorem neg_sample_never_matched (db : DBSnapshot) (ratio hd hc : ℚ) (ps ns : Nat → Nat)
    (m : SampleMeta) (hm : m ∈ okMetadata (build_dataset db ratio hd hc ps ns))
    (hl : m.label = 0) :
    (m.feature_a, m.feature_b) ∉ matchedFeatureSet (probe_matched_pairs db) ∧
    (m.feature_b, m.feature_a) ∉ matchedFeatureSet (probe_matched_pairs db) := by
  rcases okMetadata_cases db ratio hd hc ps ns with h | h
  · rw [h] at hm; cases hm
  · have hm' := h.subset hm
    rcases List.mem_map.mp hm' with ⟨p, hp, rfl⟩
    rcases List.mem_append.mp hp with hp | hp
    · have h1 := positiveSamples_label db _ p hp
      rw [h1] at hl
      cases hl
    · have inv := negativeSamples_inv db (probe_matched_pairs db)
        (positiveSamples db (probe_matched_pairs db)).length ratio hd hc ps
      have hpair : pairOf p.2 ∈ (negativeSamples db (probe_matched_pairs db)
          (positiveSamples db (probe_matched_pairs db)).length ratio hd hc ps).neg_pair_set := by
        rw [← inv.pairs_eq]
        exact List.mem_map.mpr ⟨p, hp, rfl⟩
      have hno := inv.noleak _ hpair
      exact ⟨hno, fun hsw => hno (matchedFeatureSet_swap hsw)⟩

/-- Witness for C1: the easy negative `(a1, b1)` emitted by the small
snapshot's build is not a matched pair in either orientation. -/
theorem neg_sample_never_matched_witness :
    ("a1", "b1") ∉ matchedFeatureSet (probe_matched_pairs wDb) ∧
    ("b1", "a1") ∉ matchedFeatureSet (probe_matched_pairs wDb) :=
  neg_sample_never_matched wDb 3 30 2 wStream zeroStream
    { feature_a := "a1", feature_b := "b1", job_id := "", det_score := none
      det_category := none, label := 0, neg_type := some "easy" }
    (by decide) rfl

/-! ## Claim C10 — negatives pairwise distinct by ordered pair -/

/-- C10 confirmed: in any build the emitted label-0 samples have pairwise
distinct ordered identifier pairs; and the dedup is only by ordered pair —
the small snapshot's build emits the same two records as two easy negatives
in the two opposite orientations. -/
theorem negative_pairs_distinct :
    (∀ (db : DBSnapshot) (ratio hd hc : ℚ) (ps ns : Nat → Nat),
      (((okMetadata (build_dataset db ratio hd hc ps ns)).filter
          (fun m => m.label = 0)).map pairOf).Nodup) ∧
    ({ feature_a := "a1", feature_b := "b1", job_id := "", det_score := none
       det_category := none, label := 0, neg_type := some "easy" } : SampleMeta)
        ∈ okMetadata (build_dataset wDb 3 30 2 wStream zeroStream) ∧
    ({ feature_a := "b1", feature_b := "a1", job_id := "", det_score := none
       det_category := none, label := 0, neg_type := some "easy" } : SampleMeta)
        ∈ okMetadata (build_dataset wDb 3 30 2 wStream zeroStream) := by
  refine ⟨?_, by decide, by decide⟩
  intro db ratio hd hc ps ns
  rcases okMetadata_cases db ratio hd hc ps ns with h | h
  · rw [h]; exact List.nodup_nil
  · have hperm := (h.filter (fun m => m.label = 0)).map pairOf
    refine hperm.symm.nodup ?_
    rw [List.map_append, List.filter_append, posMeta_filter0, negMeta_filter0,
      List.nil_append, List.map_map]
    have inv := negativeSamples_inv db (probe_matched_pairs db)
      (positiveSamples db (probe_matched_pairs db)).length ratio hd hc ps
    have : ((negativeSamples db (probe_matched_pairs db)
        (positiveSamples db (probe_matched_pairs db)).length ratio hd hc ps).samples.map
          (pairOf ∘ fun p => p.2))
        = (negativeSamples db (probe_matched_pairs db)
            (positiveSamples db (probe_matched_pairs db)).length ratio hd hc ps).neg_pair_set :=
      inv.pairs_eq
    rw [this]
    exact inv.nodup

/-! ## Claim C2 — negative fill policy -/

set_option maxRecDepth 10000 in
/-- C2 counterexample: a snapshot with 10 positives (targets 30 = 18 hard +
12 easy) on which hard mining exhausts the matched pairs with 0 hard
negatives, and easy mining then collects 30 easy negatives — far more than
its `target_easy` of 12, because the loop fills toward
`target_hard + target_easy` TOTAL negatives.  "Easy mining adds at most
targetEasy easy negatives" is false on the code. -/
theorem easy_negatives_exceed_target_easy :
    targetNegOf 10 3 = 30 ∧ targetHardOf 10 3 = 18 ∧ targetEasyOf 10 3 = 12 ∧
    countLabel (build_dataset c2db 3 30 2 c2stream zeroStream) 1 = 10 ∧
    countTagged (build_dataset c2db 3 30 2 c2stream zeroStream) "hard" = 0 ∧
    countTagged (build_dataset c2db 3 30 2 c2stream zeroStream) "easy" = 30 ∧
    ¬ countTagged (build_dataset c2db 3 30 2 c2stream zeroStream) "easy"
        ≤ targetEasyOf 10 3 := by
  decide

set_option maxRecDepth 10000 in
/-- C2 amended: with positiveCount = 10 and negRatio = 3.0 the targets are
30 = 18 hard + 12 easy; easy mining fills toward `target_hard + target_easy`
TOTAL negatives, so after a hard shortfall it may add more than
`target_easy` easy negatives (compensating, e.g. 30 on the counterexample
snapshot); in every build the total negative count is bounded by
`target_hard + target_easy`; and the total may still end below the target
when the attempt budget is exhausted (e.g. 0 on the same snapshot with a
stream whose picks are always rejected). -/
theorem easy_negative_fill_policy :
    (targetNegOf 10 3 = 30 ∧ targetHardOf 10 3 = 18 ∧ targetEasyOf 10 3 = 12) ∧
    (∀ (db : DBSnapshot) (ratio hd hc : ℚ) (ps ns : Nat → Nat),
      countLabel (build_dataset db ratio hd hc ps ns) 0 ≤
        targetHardOf (countLabel (build_dataset db ratio hd hc ps ns) 1) ratio +
        targetEasyOf (countLabel (build_dataset db ratio hd hc ps ns) 1) ratio) ∧
    countTagged (build_dataset c2db 3 30 2 c2stream zeroStream) "easy" = 30 ∧
    countLabel (build_dataset c2db 3 30 2 zeroStream zeroStream) 0 = 0 := by
  refine ⟨by decide, ?_, by decide, by decide⟩
  intro db ratio hd hc ps ns
  rcases build_counts db ratio hd hc ps ns with ⟨h1, h0⟩ | ⟨h1, h0⟩
  · rw [h0]; exact Nat.zero_le _
  · rw [h0, h1]
    exact negativeSamples_len db (probe_matched_pairs db) _ ratio hd hc ps

/-! ## Claim C8 — reproducibility -/

/-- C8 confirmed: the builder is a pure function of the snapshot, the
parameters and the two seeded random streams — two runs with identical
inputs produce identical output (rows, labels, shuffle order and audit
metadata order alike).  The two streams stand for the `random` and
`np.random` generators, both fully determined by the seed the source sets
once at entry. -/
theorem build_dataset_reproducible (db1 db2 : DBSnapshot) (r1 r2 hd1 hd2 hc1 hc2 : ℚ)
    (p1 p2 n1 n2 : Nat → Nat) (hdb : db1 = db2) (hr : r1 = r2) (hhd : hd1 = hd2)
    (hhc : hc1 = hc2) (hp : p1 = p2) (hn : n1 = n2) :
    build_dataset db1 r1 hd1 hc1 p1 n1 = build_dataset db2 r2 hd2 hc2 p2 n2 := by
  subst hdb hr hhd hhc hp hn
  rfl

/-- Witness for C8 at the small snapshot. -/
theorem build_dataset_reproducible_witness :
    build_dataset wDb 3 30 2 wStream zeroStream
      = build_dataset wDb 3 30 2 wStream zeroStream :=
  build_dataset_reproducible wDb wDb 3 3 30 30 2 2 wStream wStream zeroStream zeroStream
    rfl rfl rfl rfl rfl rfl

/-! ## Claim C9 — data-absence failure policy -/

/-- C9 confirmed: a snapshot with no matched pairs left after the bounded
collection-name probe aborts with the no-matched-pairs error, and a
nonempty matched-pair set whose positives all fail to resolve aborts with
the no-positives error; in both cases the result is an error value
(`sys.exit(1)`), not a partial or empty dataset. -/
theorem data_absence_aborts (db : DBSnapshot) (ratio hd hc : ℚ) (ps ns : Nat → Nat) :
    (probe_matched_pairs db = [] →
      build_dataset db ratio hd hc ps ns = Except.error BuildError.noMatchedPairs) ∧
    (probe_matched_pairs db ≠ [] → positiveSamples db (probe_matched_pairs db) = [] →
      build_dataset db ratio hd hc ps ns = Except.error BuildError.noPositives) := by
  constructor
  · intro h
    rw [build_dataset, if_pos h]
  · intro h1 h2
    rw [build_dataset, if_neg h1, if_pos (by rw [h2]; rfl)]

/-- Witness for C9: the empty snapshot aborts on matched pairs; the
unresolvable-pairs snapshot aborts on positives. -/
theorem data_absence_aborts_witness :
    build_dataset emptyDb 3 30 2 zeroStream zeroStream
        = Except.error BuildError.noMatchedPairs ∧
    build_dataset noPosDb 3 30 2 zeroStream zeroStream
        = Except.error BuildError.noPositives :=
  ⟨(data_absence_aborts emptyDb 3 30 2 zeroStream zeroStream).1 (by decide),
   (data_absence_aborts noPosDb 3 30 2 zeroStream zeroStream).2 (by decide) (by rfl)⟩
